import Mathlib

/-!
Verification of the MKVFixer compliance engine against its specification.

The definitions below are a shallow embedding of the Go sources:
  * `Config`, `Track`, `TrackProperties`, `MkvInfo` mirror `types.go`;
  * `determineTargetVideoLanguage`, the compliance loop of `remuxFile`
    (`needsFix`, `hasVideo`), the keep-list / argument construction
    (`keepAudioIds`, `audioTracksArgs`, `trackArgs`, `buildArgs`) and the
    output-file naming mirror the current revision of `actions.go`;
  * `Cache.Check` / `Cache.Update` / the write pattern of `Cache.Save`
    mirror the cache component, with the file system abstracted as
    explicit functions from paths to stat results.

Go track ids are the nonnegative integers mkvmerge assigns, embedded as
`Nat`; `fmt.Sprintf "%d"` on such an id is `toString`.  Go `string` is
`String`, machine-dependent `int64` Unix times are `Int` (no overflow is
exercised).  Fallible operations return `Except` or pair their result
with an error component, matching Go's multiple return values.
-/

/-- `Config` from `types.go`: the policy. -/
structure Config where
  videoLanguage : String
  audioLanguages : List String
  defaultAudio : String
  subtitleLanguages : List String
deriving DecidableEq

/-- `TrackProperties` from `types.go`. -/
structure TrackProperties where
  language : String
  defaultTrack : Bool
deriving DecidableEq

/-- `Track` from `types.go`.  `type` is the mkvmerge kind string
("video" / "audio" / "subtitles" / anything else). -/
structure Track where
  id : Nat
  type : String
  properties : TrackProperties
deriving DecidableEq

/-- `MkvInfo` from `types.go`: the ordered track list of one file. -/
structure MkvInfo where
  tracks : List Track
deriving DecidableEq

/-- `ActionType` from `actions.go`: the operation scope. -/
inductive ActionType where
  | all
  | audio
  | subtitle
deriving DecidableEq

/-- The scope condition `actionType == ActionAll || actionType == ActionAudio`
that gates video and audio checks in `remuxFile`. -/
def audioScope (actionType : ActionType) : Bool :=
  actionType == ActionType.all || actionType == ActionType.audio

/-- The scope condition `actionType == ActionAll || actionType == ActionSubtitle`
that gates subtitle checks in `remuxFile`. -/
def subScope (actionType : ActionType) : Bool :=
  actionType == ActionType.all || actionType == ActionType.subtitle

/-- The `isInList` closure of `remuxFile`: membership of a language in an
allow-list. -/
def isInList (lang : String) (list : List String) : Bool :=
  list.any fun l => l == lang

/-- The audio-scanning loop of `determineTargetVideoLanguage`: walks the
track list carrying the two mutable variables `hasPreferredAudio` (hp) and
`firstAudioLang` (fa) exactly as the Go loop updates them. -/
def scanAudioGo (preferredLang : String) : List Track → Bool → String → Bool × String
  | [], hp, fa => (hp, fa)
  | t :: ts, hp, fa =>
    if t.type == "audio" then
      scanAudioGo preferredLang ts
        (hp || (t.properties.language == preferredLang))
        (if fa == "" then t.properties.language else fa)
    else
      scanAudioGo preferredLang ts hp fa

/-- `determineTargetVideoLanguage` from `actions.go`: returns the target
language for a video track and whether a fix is needed. -/
def determineTargetVideoLanguage (videoTrack : Track) (info : MkvInfo)
    (preferredLang : String) : String × Bool :=
  let current := videoTrack.properties.language
  if current == preferredLang then
    (preferredLang, false)
  else if current != "und" && current != "unk" then
    (preferredLang, true)
  else
    let scan := scanAudioGo preferredLang info.tracks false ""
    if scan.1 then
      (preferredLang, true)
    else if scan.2 != "" then
      (scan.2, true)
    else
      ("und", false)

/-- The per-track body of the compliance loop in `remuxFile` (the three
`if track.Type == ...` blocks that may set `needsFix`).  A Go track has a
single `Type` string, so the disjunction of the three blocks is exactly
the contribution of this track to `needsFix`. -/
def trackNeedsFix (info : MkvInfo) (cfg : Config) (actionType : ActionType)
    (track : Track) : Bool :=
  (if track.type == "video" && audioScope actionType then
    (determineTargetVideoLanguage track info cfg.videoLanguage).2
   else false)
  || (if track.type == "audio" && audioScope actionType then
        if !(isInList track.properties.language cfg.audioLanguages) then
          true
        else
          track.properties.defaultTrack != (track.properties.language == cfg.defaultAudio)
      else false)
  || (if track.type == "subtitles" && subScope actionType then
        !(isInList track.properties.language cfg.subtitleLanguages)
      else false)

/-- The `needsFix` flag computed by the compliance loop of `remuxFile`. -/
def needsFix (info : MkvInfo) (cfg : Config) (actionType : ActionType) : Bool :=
  info.tracks.any (trackNeedsFix info cfg actionType)

/-- The `hasVideo` flag computed by the compliance loop of `remuxFile`. -/
def hasVideo (info : MkvInfo) : Bool :=
  info.tracks.any fun t => t.type == "video"

example : determineTargetVideoLanguage ⟨0, "video", ⟨"und", false⟩⟩
    ⟨[⟨0, "video", ⟨"und", false⟩⟩, ⟨1, "audio", ⟨"jpn", false⟩⟩,
      ⟨2, "audio", ⟨"eng", false⟩⟩]⟩ "eng" = ("eng", true) := by decide

example : determineTargetVideoLanguage ⟨0, "video", ⟨"und", false⟩⟩
    ⟨[⟨0, "video", ⟨"und", false⟩⟩, ⟨1, "audio", ⟨"jpn", false⟩⟩]⟩ "eng"
    = ("jpn", true) := by decide

example : determineTargetVideoLanguage ⟨0, "video", ⟨"und", false⟩⟩
    ⟨[⟨0, "video", ⟨"und", false⟩⟩]⟩ "eng" = ("und", false) := by decide

/-- The audio keep-list built by the first collection loop of `remuxFile`:
ids (as decimal strings, via `fmt.Sprintf "%d"`) of audio tracks whose
language is allowed, in declaration order, collected only when the scope
includes audio. -/
def keepAudioIds (info : MkvInfo) (cfg : Config) (actionType : ActionType) : List String :=
  (info.tracks.filter fun t =>
    t.type == "audio" && audioScope actionType
      && isInList t.properties.language cfg.audioLanguages).map fun t => toString t.id

/-- The subtitle keep-list built by the first collection loop of `remuxFile`. -/
def keepSubtitleIds (info : MkvInfo) (cfg : Config) (actionType : ActionType) : List String :=
  (info.tracks.filter fun t =>
    t.type == "subtitles" && subScope actionType
      && isInList t.properties.language cfg.subtitleLanguages).map fun t => toString t.id

/-- The audio-selection arguments appended by `remuxFile` ("Handle Audio"):
the comma-joined keep-list when non-empty, `--no-audio` otherwise. -/
def audioTracksArgs (info : MkvInfo) (cfg : Config) (actionType : ActionType) : List String :=
  if audioScope actionType then
    if (keepAudioIds info cfg actionType).length > 0 then
      ["--audio-tracks", String.intercalate "," (keepAudioIds info cfg actionType)]
    else
      ["--no-audio"]
  else []

/-- The subtitle-selection arguments appended by `remuxFile` ("Handle Subtitles"). -/
def subtitleTracksArgs (info : MkvInfo) (cfg : Config) (actionType : ActionType) : List String :=
  if subScope actionType then
    if (keepSubtitleIds info cfg actionType).length > 0 then
      ["--subtitle-tracks", String.intercalate "," (keepSubtitleIds info cfg actionType)]
    else
      ["--no-subtitles"]
  else []

/-- The arguments the second per-track loop of `remuxFile` appends for one
track: a `--language` override for a video track, a `--default-track`
instruction for a kept audio track. -/
def trackArgs (info : MkvInfo) (cfg : Config) (actionType : ActionType)
    (track : Track) : List String :=
  (if track.type == "video" && audioScope actionType then
    ["--language",
     toString track.id ++ ":" ++ (determineTargetVideoLanguage track info cfg.videoLanguage).1]
   else [])
  ++ (if track.type == "audio" && audioScope actionType
        && isInList track.properties.language cfg.audioLanguages then
        if track.properties.language == cfg.defaultAudio then
          ["--default-track", toString track.id ++ ":yes"]
        else
          ["--default-track", toString track.id ++ ":no"]
      else [])

/-- The full mkvmerge argument list `remuxFile` builds for a non-compliant
file: `-o out`, the two track-selection sections, the per-track override
flags in declaration order, and the input path. -/
def buildArgs (info : MkvInfo) (cfg : Config) (actionType : ActionType)
    (outputFile inputFile : String) : List String :=
  ["-o", outputFile]
    ++ audioTracksArgs info cfg actionType
    ++ subtitleTracksArgs info cfg actionType
    ++ info.tracks.flatMap (trackArgs info cfg actionType)
    ++ [inputFile]

/-- Helper for `pathExt`: walks the reversed character list of the path;
stops with the extension (final dot included) at the first dot, with
nothing at the first path separator or at the start of the string. -/
def extRevAux : List Char → List Char → Option (List Char)
  | [], _ => none
  | c :: rest, acc =>
    if c = '.' then some (c :: acc)
    else if c = '/' then none
    else extRevAux rest (c :: acc)

/-- `filepath.Ext`: the suffix beginning at the final dot in the final
slash-separated element of the path, empty if there is no dot. -/
def pathExt (s : String) : String :=
  match extRevAux s.data.reverse [] with
  | some cs => String.mk cs
  | none => ""

/-- `strings.TrimSuffix`: drops the suffix when present. -/
def trimSuffix (s suf : String) : String :=
  if suf.data.isSuffixOf s.data then
    String.mk (s.data.take (s.data.length - suf.data.length))
  else s

/-- The output-file naming of `remuxFile`: insert `-remux` before the
extension. -/
def outputName (inputFile : String) : String :=
  trimSuffix inputFile (pathExt inputFile) ++ "-remux" ++ pathExt inputFile

example : outputName "show.mkv" = "show-remux.mkv" := by decide
example : outputName "a/b.c/show.mkv" = "a/b.c/show-remux.mkv" := by decide

/-- The control-flow outcome of `remuxFile` after a successful inspection:
the compliant early return, the check-only early return, or the remux
invocation with its output path and argument list. -/
inductive RemuxResult where
  | compliantSkip (path : String)
  | checkOnlySkip
  | remux (outputFile : String) (args : List String)
deriving DecidableEq

/-- The branch structure of `remuxFile` (current revision) after parsing
the inspection: `if hasVideo && !needsFix` return the input; `if checkOnly`
return the empty path; otherwise invoke the remux tool. -/
def remuxDecision (info : MkvInfo) (cfg : Config) (checkOnly : Bool)
    (actionType : ActionType) (inputFile : String) : RemuxResult :=
  if hasVideo info && !(needsFix info cfg actionType) then
    RemuxResult.compliantSkip inputFile
  else if checkOnly then
    RemuxResult.checkOnlySkip
  else
    RemuxResult.remux (outputName inputFile)
      (buildArgs info cfg actionType (outputName inputFile) inputFile)

/-- The final path `remuxFile` returns for each outcome, given whether the
external tool run and the deletion of the original succeed (steps D and E). -/
def remuxFinalPath (r : RemuxResult) (toolSucceeds deleteOrigSucceeds : Bool) :
    Except String String :=
  match r with
  | RemuxResult.compliantSkip p => Except.ok p
  | RemuxResult.checkOnlySkip => Except.ok ""
  | RemuxResult.remux out _ =>
    if toolSucceeds then
      if deleteOrigSucceeds then Except.ok out
      else Except.error "could not delete original file"
    else Except.error "remux command failed"

/-- The caching rule of the `worker` closure in `main.go` (current
revision): on success with a non-empty final path, the cache is updated
with that path; otherwise nothing is cached. -/
def workerCachedPath : Except String String → Option String
  | Except.error _ => none
  | Except.ok p => if p == "" then none else some p

/-- Whether the mkvmerge command built by `buildArgs` keeps a track: audio
and subtitle tracks are kept exactly when their id is on the respective
keep-list (equivalently, when their language is allowed), restricted to
the scoped kinds; everything else (video, other) is untouched by the
track-selection flags. -/
def keepTrack (cfg : Config) (actionType : ActionType) (t : Track) : Bool :=
  if t.type == "audio" && audioScope actionType then
    isInList t.properties.language cfg.audioLanguages
  else if t.type == "subtitles" && subScope actionType then
    isInList t.properties.language cfg.subtitleLanguages
  else true

/-- The effect of the per-track override flags of `buildArgs` on one kept
track: `--language id:target` retags a video track with the resolved
target (computed from the original inspection), `--default-track id:yes|no`
sets a kept audio track's default flag to `language == DefaultAudio`. -/
def overrideTrack (info : MkvInfo) (cfg : Config) (actionType : ActionType)
    (t : Track) : Track :=
  if t.type == "video" && audioScope actionType then
    { t with properties :=
      { t.properties with
          language := (determineTargetVideoLanguage t info cfg.videoLanguage).1 } }
  else if t.type == "audio" && audioScope actionType
      && isInList t.properties.language cfg.audioLanguages then
    { t with properties :=
      { t.properties with
          defaultTrack := t.properties.language == cfg.defaultAudio } }
  else t

/-- The track list of the output file produced by the external tool from
the command `buildArgs` constructs: dropped tracks removed, language
overrides and default-flag assignments applied, declaration order kept. -/
def applyPlan (info : MkvInfo) (cfg : Config) (actionType : ActionType) : MkvInfo :=
  ⟨(info.tracks.filter (keepTrack cfg actionType)).map (overrideTrack info cfg actionType)⟩

/-- The file-system facts the cache consults, abstracted as functions:
`filepath.Abs` and the Unix modification time obtained by `os.Stat`
(`stat.ModTime().Unix()`). -/
structure FileSystem where
  abs : String → Except String String
  mtimeUnix : String → Except String Int

/-- The in-memory map `Cache.Items`: cache key to stored Unix time. -/
def CacheItems : Type := String → Option Int

/-- `Cache.Check` from `main.go`: resolve the path, stat it, and report
true exactly when the entry stored under `cacheKey` equals the current
modification time.  The Go `(bool, error)` return is a pair whose second
component is the non-nil error, if any. -/
def Cache.Check (fs : FileSystem) (items : CacheItems)
    (cacheKey filePath : String) : Bool × Option String :=
  match fs.abs filePath with
  | Except.error e => (false, some e)
  | Except.ok absPath =>
    match fs.mtimeUnix absPath with
    | Except.error e => (false, some e)
    | Except.ok mt =>
      match items cacheKey with
      | none => (false, none)
      | some cachedTime => (decide (mt = cachedTime), none)

/-- `Cache.Update` from `main.go`, in state-passing form: the second
component is the `Items` map after the call (the map is mutated only
after both the path resolution and the stat succeed). -/
def Cache.Update (fs : FileSystem) (items : CacheItems)
    (cacheKey filePath : String) : Except String Unit × CacheItems :=
  match fs.abs filePath with
  | Except.error e => (Except.error e, items)
  | Except.ok absPath =>
    match fs.mtimeUnix absPath with
    | Except.error e => (Except.error e, items)
    | Except.ok mt =>
      (Except.ok (), fun k => if k = cacheKey then some mt else items k)

/-- A primitive operation on the byte content of one on-disk file. -/
inductive FsWriteOp where
  | truncate
  | append (chunk : String)
deriving DecidableEq

/-- Effect of one primitive write operation on the file content. -/
def applyWriteOp (content : String) : FsWriteOp → String
  | FsWriteOp.truncate => ""
  | FsWriteOp.append s => content ++ s

/-- Replay a sequence of write operations on an initial file content. -/
def runWriteOps (content : String) (ops : List FsWriteOp) : String :=
  ops.foldl applyWriteOp content

/-- The effect of Go's `os.WriteFile` on the target file: the file is
opened with `O_TRUNC` (truncating it in place) and the data is then
written to it. -/
def writeFileOps (data : String) : List FsWriteOp :=
  [FsWriteOp.truncate, FsWriteOp.append data]

/-- The sequence of operations `Cache.Save` performs on the on-disk cache
file at `c.path`: a single in-place `os.WriteFile` of the serialized map
(`data` stands for the `json.MarshalIndent` output). -/
def Cache.saveOps (data : String) : List FsWriteOp :=
  writeFileOps data

/-- Modelled from the spec: the atomic-replace requirement of §4.3 —
interrupting the write sequence at any point must leave the target file
holding either the complete old content or the complete new content. -/
def atomicOnCrash (oldContent newContent : String) (ops : List FsWriteOp) : Prop :=
  ∀ k, k ≤ ops.length →
    runWriteOps oldContent (ops.take k) = oldContent
      ∨ runWriteOps oldContent (ops.take k) = newContent

/-- Whether some audio track of the list carries exactly the language
`pref` (rule 1 of the spec's language-inference rule). -/
def hasAudioLang (tracks : List Track) (pref : String) : Bool :=
  tracks.any fun t => t.type == "audio" && t.properties.language == pref

/-- The language of the first audio track with a non-empty language, in
declaration order, or `""` if there is none: the value of the Go loop's
`firstAudioLang` variable after the scan (an audio track with an empty
language string leaves the variable unset). -/
def firstNonemptyAudioLang : List Track → String
  | [] => ""
  | t :: ts =>
    if t.type == "audio" && t.properties.language != "" then
      t.properties.language
    else
      firstNonemptyAudioLang ts

lemma scanAudioGo_eq (pref : String) (tracks : List Track) (hp : Bool) (fa : String) :
    scanAudioGo pref tracks hp fa =
      (hp || hasAudioLang tracks pref,
       if fa = "" then firstNonemptyAudioLang tracks else fa) := by
  induction tracks generalizing hp fa with
  | nil =>
    simp only [scanAudioGo, hasAudioLang, List.any_nil, Bool.or_false,
      firstNonemptyAudioLang]
    by_cases h : fa = "" <;> simp [h]
  | cons t ts ih =>
    simp only [scanAudioGo, hasAudioLang, List.any_cons, firstNonemptyAudioLang]
    by_cases hty : (t.type == "audio") = true
    · rw [if_pos hty, ih]
      refine Prod.ext ?_ ?_
      · simp [hty, Bool.or_assoc, hasAudioLang]
      · by_cases hfa : fa = ""
        · by_cases hl : t.properties.language = ""
          · simp [hfa, hl, hty]
          · simp [hfa, hl, hty]
        · simp [hfa]
    · rw [if_neg hty, ih]
      simp only [Bool.not_eq_true] at hty
      simp [hty, hasAudioLang]

lemma hasAudioLang_iff (tracks : List Track) (pref : String) :
    hasAudioLang tracks pref = true
      ↔ ∃ a ∈ tracks, a.type = "audio" ∧ a.properties.language = pref := by
  simp [hasAudioLang, List.any_eq_true]

lemma firstNonemptyAudioLang_eq_empty_iff (tracks : List Track) :
    firstNonemptyAudioLang tracks = ""
      ↔ ∀ a ∈ tracks, a.type = "audio" → a.properties.language = "" := by
  induction tracks with
  | nil => simp [firstNonemptyAudioLang]
  | cons t ts ih =>
    simp only [firstNonemptyAudioLang]
    by_cases h : (t.type == "audio" && t.properties.language != "") = true
    · rw [if_pos h]
      simp only [Bool.and_eq_true, beq_iff_eq, bne_iff_ne] at h
      simp [h.1, h.2]
    · rw [if_neg h]
      simp only [Bool.and_eq_true, beq_iff_eq, bne_iff_ne, not_and, not_not] at h
      rw [ih]
      simp only [List.forall_mem_cons]
      exact ⟨fun hts => ⟨h, hts⟩, fun hc => hc.2⟩

lemma scanAudioGo_no_audio (pref : String) (tracks : List Track) (hp : Bool) (fa : String)
    (h : ∀ a ∈ tracks, a.type ≠ "audio") :
    scanAudioGo pref tracks hp fa = (hp, fa) := by
  induction tracks with
  | nil => rfl
  | cons t ts ih =>
    have hty : (t.type == "audio") = false := by
      simpa using h t (List.mem_cons_self t ts)
    simp only [scanAudioGo, hty, Bool.false_eq_true, if_false]
    exact ih fun a ha => h a (List.mem_cons_of_mem t ha)

lemma determineTarget_eq_pref (t : Track) (info : MkvInfo) (pref : String)
    (heq : t.properties.language = pref) :
    determineTargetVideoLanguage t info pref = (pref, false) := by
  simp [determineTargetVideoLanguage, heq]

lemma determineTarget_forced (t : Track) (info : MkvInfo) (pref : String)
    (hne : t.properties.language ≠ pref)
    (hu1 : t.properties.language ≠ "und") (hu2 : t.properties.language ≠ "unk") :
    determineTargetVideoLanguage t info pref = (pref, true) := by
  simp [determineTargetVideoLanguage, hne, hu1, hu2]

lemma determineTarget_und (t : Track) (info : MkvInfo) (pref : String)
    (hund : t.properties.language = "und" ∨ t.properties.language = "unk")
    (hne : t.properties.language ≠ pref) :
    determineTargetVideoLanguage t info pref =
      (if hasAudioLang info.tracks pref = true then (pref, true)
       else if firstNonemptyAudioLang info.tracks = "" then ("und", false)
       else (firstNonemptyAudioLang info.tracks, true)) := by
  have h1 : (t.properties.language == pref) = false := by simpa using hne
  have h2 : (t.properties.language != "und" && t.properties.language != "unk") = false := by
    rcases hund with h | h <;> simp [h]
  by_cases h3 : hasAudioLang info.tracks pref = true
  · simp [determineTargetVideoLanguage, scanAudioGo_eq, h1, h2, h3]
  · by_cases h4 : firstNonemptyAudioLang info.tracks = ""
    · simp [determineTargetVideoLanguage, scanAudioGo_eq, h1, h2, h3, h4]
    · simp [determineTargetVideoLanguage, scanAudioGo_eq, h1, h2, h3, h4]

lemma determineTarget_snd_iff (t : Track) (info : MkvInfo) (pref : String) :
    (determineTargetVideoLanguage t info pref).2 = true ↔
      (t.properties.language ≠ pref ∧
        (¬(t.properties.language = "und" ∨ t.properties.language = "unk")
          ∨ (∃ a ∈ info.tracks, a.type = "audio" ∧ a.properties.language = pref)
          ∨ (∃ a ∈ info.tracks, a.type = "audio" ∧ a.properties.language ≠ ""))) := by
  by_cases heq : t.properties.language = pref
  · simp [determineTarget_eq_pref t info pref heq, heq]
  · by_cases hund : t.properties.language = "und" ∨ t.properties.language = "unk"
    · rw [determineTarget_und t info pref hund heq]
      by_cases h3 : hasAudioLang info.tracks pref = true
      · have hex := (hasAudioLang_iff info.tracks pref).mp h3
        simp [h3, heq, hex]
      · by_cases h4 : firstNonemptyAudioLang info.tracks = ""
        · have h3' : ¬ ∃ a ∈ info.tracks, a.type = "audio" ∧ a.properties.language = pref := by
            rw [← hasAudioLang_iff]
            simp [h3]
          have hall := (firstNonemptyAudioLang_eq_empty_iff info.tracks).mp h4
          have h4' : ¬ ∃ a ∈ info.tracks, a.type = "audio" ∧ a.properties.language ≠ "" := by
            rintro ⟨a, ha, hat, hal⟩
            exact hal (hall a ha hat)
          rcases hund with h | h <;> simp [h3, h4, h, heq, h3', h4']
        · have h4' : ∃ a ∈ info.tracks, a.type = "audio" ∧ a.properties.language ≠ "" := by
            by_contra hc
            push_neg at hc
            exact h4 ((firstNonemptyAudioLang_eq_empty_iff info.tracks).mpr hc)
          simp [h3, h4, heq, h4']
    · push_neg at hund
      rw [determineTarget_forced t info pref heq hund.1 hund.2]
      simp [heq, hund.1, hund.2]

/-- C1 (amended): for a video track whose current language is the
undetermined sentinel ("und" or "unk"), the resolved target is computed
as follows.  If the current language already equals `targetVideoLanguage`
(possible only when the target itself is a sentinel) it resolves to the
target and is not flagged.  Otherwise: rule 1 — if some audio track's
language equals the target, resolve to the target; rule 2 — else, if some
audio track has a non-empty language, resolve to the language of the
first such audio track in declaration order; rule 3 — else (no audio
track with a non-empty language), the resolved target stays "und" and the
track is not flagged non-compliant. -/
theorem und_video_language_inference (t : Track) (info : MkvInfo) (pref : String)
    (hund : t.properties.language = "und" ∨ t.properties.language = "unk") :
    (t.properties.language = pref → determineTargetVideoLanguage t info pref = (pref, false))
    ∧ (t.properties.language ≠ pref →
        ((∃ a ∈ info.tracks, a.type = "audio" ∧ a.properties.language = pref) →
            determineTargetVideoLanguage t info pref = (pref, true))
        ∧ ((∀ a ∈ info.tracks, a.type = "audio" → a.properties.language ≠ pref) →
            ((∃ a ∈ info.tracks, a.type = "audio" ∧ a.properties.language ≠ "") →
                determineTargetVideoLanguage t info pref
                  = (firstNonemptyAudioLang info.tracks, true))
            ∧ ((∀ a ∈ info.tracks, a.type = "audio" → a.properties.language = "") →
                determineTargetVideoLanguage t info pref = ("und", false)))) := by
  refine ⟨fun heq => determineTarget_eq_pref t info pref heq, fun hne => ?_⟩
  rw [determineTarget_und t info pref hund hne]
  refine ⟨fun hex => ?_, fun hnopref => ?_⟩
  · rw [if_pos ((hasAudioLang_iff info.tracks pref).mpr hex)]
  · have h3 : hasAudioLang info.tracks pref = false := by
      rw [← Bool.not_eq_true, hasAudioLang_iff]
      rintro ⟨a, ha, hat, hal⟩
      exact hnopref a ha hat hal
    refine ⟨fun hex => ?_, fun hall => ?_⟩
    · have h4 : firstNonemptyAudioLang info.tracks ≠ "" := by
        rw [ne_eq, firstNonemptyAudioLang_eq_empty_iff]
        rintro hc
        rcases hex with ⟨a, ha, hat, hal⟩
        exact hal (hc a ha hat)
      simp [h3, h4]
    · have h4 : firstNonemptyAudioLang info.tracks = "" :=
        (firstNonemptyAudioLang_eq_empty_iff info.tracks).mpr hall
      simp [h3, h4]

/-- The video track of the C1 counterexample. -/
def c1Video : Track := ⟨0, "video", ⟨"und", false⟩⟩

/-- The C1 counterexample inspection: an undetermined video track followed
by one audio track in language "jpn". -/
def c1Info : MkvInfo := ⟨[c1Video, ⟨1, "audio", ⟨"jpn", false⟩⟩]⟩

/-- C1 (counterexample): with `targetVideoLanguage = "und"` and tracks
`[video:und, audio:jpn]`, the claim's rules demand resolution to the first
audio track's language "jpn" (no audio track's language equals the
target, and an audio track exists), but the code's early return for
`current == preferredLang` resolves to "und". -/
theorem und_video_language_inference_cex :
    c1Video.properties.language = "und"
    ∧ (c1Info.tracks.any fun a => a.type == "audio") = true
    ∧ (c1Info.tracks.all fun a =>
        !(a.type == "audio" && a.properties.language == "und")) = true
    ∧ (c1Info.tracks.filter fun a => a.type == "audio")
        = [⟨1, "audio", ⟨"jpn", false⟩⟩]
    ∧ (determineTargetVideoLanguage c1Video c1Info "und").1 = "und"
    ∧ ((determineTargetVideoLanguage c1Video c1Info "und").1 == "jpn") = false := by
  decide

/-- Witness for the amended C1 at a concrete input: tracks
`[video:und, audio:jpn]`, target "eng" resolve by rule 2 to "jpn". -/
theorem und_video_language_inference_witness :
    determineTargetVideoLanguage c1Video c1Info "eng"
      = (firstNonemptyAudioLang c1Info.tracks, true) :=
  ((((und_video_language_inference c1Video c1Info "eng"
      (Or.inl (by decide))).2 (by decide)).2 (by decide)).1 (by decide))

lemma trackNeedsFix_video (A : MkvInfo) (cfg : Config) (actionType : ActionType)
    (t : Track) (ht : t.type = "video") :
    trackNeedsFix A cfg actionType t =
      (if audioScope actionType then
        (determineTargetVideoLanguage t A cfg.videoLanguage).2
       else false) := by
  simp [trackNeedsFix, ht]

lemma trackNeedsFix_audio (A : MkvInfo) (cfg : Config) (actionType : ActionType)
    (t : Track) (ht : t.type = "audio") :
    trackNeedsFix A cfg actionType t =
      (if audioScope actionType then
        if !(isInList t.properties.language cfg.audioLanguages) then true
        else t.properties.defaultTrack != (t.properties.language == cfg.defaultAudio)
       else false) := by
  simp [trackNeedsFix, ht]

lemma trackNeedsFix_subtitles (A : MkvInfo) (cfg : Config) (actionType : ActionType)
    (t : Track) (ht : t.type = "subtitles") :
    trackNeedsFix A cfg actionType t =
      (if subScope actionType then
        !(isInList t.properties.language cfg.subtitleLanguages)
       else false) := by
  simp [trackNeedsFix, ht]

lemma trackNeedsFix_other (A : MkvInfo) (cfg : Config) (actionType : ActionType)
    (t : Track) (h1 : t.type ≠ "video") (h2 : t.type ≠ "audio")
    (h3 : t.type ≠ "subtitles") :
    trackNeedsFix A cfg actionType t = false := by
  simp [trackNeedsFix, h1, h2, h3]

/-- C2 (amended): under a scope that includes audio checks, a video track
is flagged (and thereby makes the file non-compliant) exactly when its
current language differs from `targetVideoLanguage` AND the current
language is either not an undetermined sentinel, or some audio track's
language equals `targetVideoLanguage`, or some audio track has a
non-empty language.  (The original claim's criterion "resolved target
differs from current language" is not equivalent: the fix flag can be set
with resolved target equal to the current language, and an "unk" video
with no audio resolves to "und" without being flagged.) -/
theorem video_fix_flag_iff (info : MkvInfo) (cfg : Config) (actionType : ActionType)
    (t : Track) (hmem : t ∈ info.tracks) (ht : t.type = "video")
    (ha : audioScope actionType = true) :
    (trackNeedsFix info cfg actionType t = true ↔
      (t.properties.language ≠ cfg.videoLanguage ∧
        (¬(t.properties.language = "und" ∨ t.properties.language = "unk")
          ∨ (∃ a ∈ info.tracks, a.type = "audio"
              ∧ a.properties.language = cfg.videoLanguage)
          ∨ (∃ a ∈ info.tracks, a.type = "audio" ∧ a.properties.language ≠ ""))))
    ∧ (trackNeedsFix info cfg actionType t = true → needsFix info cfg actionType = true) := by
  constructor
  · rw [← determineTarget_snd_iff t info cfg.videoLanguage]
    rw [trackNeedsFix_video info cfg actionType t ht, if_pos ha]
  · intro hfix
    exact List.any_eq_true.mpr ⟨t, hmem, hfix⟩

/-- The video track of the C2 counterexample. -/
def c2Video : Track := ⟨0, "video", ⟨"und", true⟩⟩

/-- The C2 counterexample inspection: an undetermined video track and an
audio track whose language is itself "und". -/
def c2Info : MkvInfo := ⟨[c2Video, ⟨1, "audio", ⟨"und", true⟩⟩]⟩

/-- The C2 counterexample policy: target video language "eng"; the "und"
audio track is allowed and correctly flagged default, so only the video
track can make the file non-compliant. -/
def c2Cfg : Config := ⟨"eng", ["und"], "und", []⟩

/-- C2 (counterexample): on tracks `[video:und, audio:und]` with target
"eng", the resolved target equals the video track's current language
("und", the first audio track's language), yet the video check flags the
track and the file is judged non-compliant — contradicting "non-compliant
exactly when the resolved target differs from the current language". -/
theorem video_fix_flag_cex :
    (determineTargetVideoLanguage c2Video c2Info c2Cfg.videoLanguage).1
        = c2Video.properties.language
    ∧ trackNeedsFix c2Info c2Cfg ActionType.all c2Video = true
    ∧ trackNeedsFix c2Info c2Cfg ActionType.all ⟨1, "audio", ⟨"und", true⟩⟩ = false
    ∧ needsFix c2Info c2Cfg ActionType.all = true := by
  decide

/-- Witness for the amended C2 at a concrete input. -/
theorem video_fix_flag_witness :
    trackNeedsFix c2Info c2Cfg ActionType.all c2Video = true
    ∧ needsFix c2Info c2Cfg ActionType.all = true := by
  have h := video_fix_flag_iff c2Info c2Cfg ActionType.all c2Video
    (by decide) (by decide) (by decide)
  have hfix := h.1.mpr (by decide)
  exact ⟨hfix, h.2 hfix⟩

lemma overrideTrack_type (info : MkvInfo) (cfg : Config) (actionType : ActionType)
    (t : Track) : (overrideTrack info cfg actionType t).type = t.type := by
  unfold overrideTrack
  split
  · rfl
  · split <;> rfl

lemma keepTrack_video (cfg : Config) (actionType : ActionType) (t : Track)
    (ht : t.type = "video") : keepTrack cfg actionType t = true := by
  simp [keepTrack, ht]

lemma no_audio_scan_facts (l : List Track) (pref : String)
    (h : ∀ a ∈ l, a.type ≠ "audio") :
    hasAudioLang l pref = false ∧ firstNonemptyAudioLang l = "" := by
  constructor
  · rw [← Bool.not_eq_true, hasAudioLang_iff]
    rintro ⟨a, ha, hat, _⟩
    exact h a ha hat
  · exact (firstNonemptyAudioLang_eq_empty_iff l).mpr fun a ha hat => absurd hat (h a ha)

lemma applyPlan_no_audio (info : MkvInfo) (cfg : Config) (actionType : ActionType)
    (h : ∀ a ∈ info.tracks, a.type ≠ "audio") :
    ∀ a ∈ (applyPlan info cfg actionType).tracks, a.type ≠ "audio" := by
  intro a ha
  simp only [applyPlan, List.mem_map, List.mem_filter] at ha
  obtain ⟨u, ⟨hu, _⟩, rfl⟩ := ha
  rw [overrideTrack_type]
  exact h u hu

/-- C3 (amended): applying the remediation plan makes all audio and
subtitle tracks compliant, but the video check re-runs the inference on
the remuxed file, so one application is guaranteed to yield a compliant
file only when the scope is subtitle-only, or the file has no audio
tracks, or every video track's resolved target equals
`targetVideoLanguage` (inference rule 1, or a video language that is
already determinate).  When rule 2 resolves the video language to a
non-target audio language, the remuxed file is judged non-compliant
again on re-evaluation (see the counterexample), so plan application is
not idempotent in general. -/
theorem applyPlan_reeval_compliant (info : MkvInfo) (cfg : Config)
    (actionType : ActionType)
    (hv : hasVideo info = true)
    (_hnc : needsFix info cfg actionType = true)
    (hcond : actionType = ActionType.subtitle
      ∨ (∀ a ∈ info.tracks, a.type ≠ "audio")
      ∨ (∀ t ∈ info.tracks, t.type = "video" →
          (determineTargetVideoLanguage t info cfg.videoLanguage).1 = cfg.videoLanguage)) :
    hasVideo (applyPlan info cfg actionType) = true
    ∧ needsFix (applyPlan info cfg actionType) cfg actionType = false := by
  constructor
  · rw [hasVideo, List.any_eq_true]
    rw [hasVideo, List.any_eq_true] at hv
    obtain ⟨t, hmem, hty⟩ := hv
    have hty' : t.type = "video" := by simpa using hty
    refine ⟨overrideTrack info cfg actionType t, ?_, ?_⟩
    · simp only [applyPlan, List.mem_map]
      refine ⟨t, ?_, rfl⟩
      rw [List.mem_filter]
      exact ⟨hmem, keepTrack_video cfg actionType t hty'⟩
    · simp [overrideTrack_type, hty']
  · rw [needsFix, List.any_eq_false]
    intro t' ht'
    simp only [applyPlan, List.mem_map, List.mem_filter] at ht'
    obtain ⟨u, ⟨humem, hukeep⟩, rfl⟩ := ht'
    rw [Bool.not_eq_true]
    by_cases hvid : u.type = "video"
    · by_cases ha : audioScope actionType = true
      · have htyp : (overrideTrack info cfg actionType u).type = "video" := by
          rw [overrideTrack_type]
          exact hvid
        have hlang : (overrideTrack info cfg actionType u).properties.language
            = (determineTargetVideoLanguage u info cfg.videoLanguage).1 := by
          simp [overrideTrack, hvid, ha]
        rw [trackNeedsFix_video _ cfg actionType _ htyp, if_pos ha]
        rcases hcond with hc | hc | hc
        · rw [hc] at ha
          simp [audioScope] at ha
        · -- no audio tracks at all
          have hIf := no_audio_scan_facts info.tracks cfg.videoLanguage hc
          have hAf := no_audio_scan_facts (applyPlan info cfg actionType).tracks
            cfg.videoLanguage (applyPlan_no_audio info cfg actionType hc)
          by_cases heq : u.properties.language = cfg.videoLanguage
          · have hlang' : (overrideTrack info cfg actionType u).properties.language
                = cfg.videoLanguage := by
              rw [hlang, determineTarget_eq_pref u info _ heq]
            rw [determineTarget_eq_pref _ _ _ hlang']
          · by_cases hund : u.properties.language = "und" ∨ u.properties.language = "unk"
            · have hlang' : (overrideTrack info cfg actionType u).properties.language
                  = "und" := by
                rw [hlang, determineTarget_und u info _ hund heq]
                simp [hIf.1, hIf.2]
              by_cases hpu : ("und" : String) = cfg.videoLanguage
              · rw [determineTarget_eq_pref _ _ _ (hlang'.trans hpu)]
              · rw [determineTarget_und _ _ _ (Or.inl hlang') (by rw [hlang']; exact hpu)]
                simp [hAf.1, hAf.2]
            · push_neg at hund
              have hlang' : (overrideTrack info cfg actionType u).properties.language
                  = cfg.videoLanguage := by
                rw [hlang, determineTarget_forced u info _ heq hund.1 hund.2]
              rw [determineTarget_eq_pref _ _ _ hlang']
        · -- every video track resolves to the target
          have hlang' : (overrideTrack info cfg actionType u).properties.language
              = cfg.videoLanguage := by
            rw [hlang, hc u humem hvid]
          rw [determineTarget_eq_pref _ _ _ hlang']
      · have hov : overrideTrack info cfg actionType u = u := by
          simp [overrideTrack, hvid, ha]
        rw [hov, trackNeedsFix_video _ cfg actionType _ hvid, if_neg ha]
    · by_cases haud : u.type = "audio"
      · by_cases ha : audioScope actionType = true
        · have hallow : isInList u.properties.language cfg.audioLanguages = true := by
            have := hukeep
            simpa [keepTrack, haud, ha] using this
          have htyp : (overrideTrack info cfg actionType u).type = "audio" := by
            rw [overrideTrack_type]
            exact haud
          have hlang : (overrideTrack info cfg actionType u).properties.language
              = u.properties.language := by
            simp [overrideTrack, hvid, haud, ha, hallow]
          have hdef : (overrideTrack info cfg actionType u).properties.defaultTrack
              = (u.properties.language == cfg.defaultAudio) := by
            simp [overrideTrack, hvid, haud, ha, hallow]
          rw [trackNeedsFix_audio _ cfg actionType _ htyp, if_pos ha, hlang, hdef]
          simp [hallow]
        · have hov : overrideTrack info cfg actionType u = u := by
            simp [overrideTrack, haud, ha]
          rw [hov, trackNeedsFix_audio _ cfg actionType _ haud, if_neg ha]
      · by_cases hsub : u.type = "subtitles"
        · have hov : overrideTrack info cfg actionType u = u := by
            simp [overrideTrack, hsub]
          rw [hov, trackNeedsFix_subtitles _ cfg actionType _ hsub]
          by_cases hs : subScope actionType = true
          · have hallow : isInList u.properties.language cfg.subtitleLanguages = true := by
              have := hukeep
              simpa [keepTrack, hsub, hs] using this
            rw [if_pos hs]
            simp [hallow]
          · rw [if_neg hs]
        · have hov : overrideTrack info cfg actionType u = u := by
            simp [overrideTrack, hvid, haud, hsub]
          rw [hov]
          exact trackNeedsFix_other _ cfg actionType u hvid haud hsub

/-- The C3 counterexample inspection (the spec's own rule-2 example): an
undetermined video track and one audio track in language "jpn". -/
def c3Info : MkvInfo := ⟨[⟨0, "video", ⟨"und", true⟩⟩, ⟨1, "audio", ⟨"jpn", true⟩⟩]⟩

/-- The C3 counterexample policy: target video language "eng", audio
allow-list ["jpn"], preferred default audio "jpn". -/
def c3Cfg : Config := ⟨"eng", ["jpn"], "jpn", []⟩

/-- C3 (counterexample): the file is non-compliant (rule 2 resolves the
video language to "jpn" ≠ "eng"); applying the computed plan retags the
video track to "jpn", and re-evaluating the remuxed track list under the
same policy and scope judges it non-compliant again — plan application is
not idempotent. -/
theorem applyPlan_reeval_cex :
    hasVideo c3Info = true
    ∧ needsFix c3Info c3Cfg ActionType.all = true
    ∧ needsFix (applyPlan c3Info c3Cfg ActionType.all) c3Cfg ActionType.all = true := by
  decide

/-- The C3 witness inspection: undetermined video plus an audio track in
the target language (rule 1 applies). -/
def c3wInfo : MkvInfo := ⟨[⟨0, "video", ⟨"und", false⟩⟩, ⟨1, "audio", ⟨"eng", false⟩⟩]⟩

/-- The C3 witness policy. -/
def c3wCfg : Config := ⟨"eng", ["eng"], "eng", []⟩

/-- Witness for the amended C3 at a concrete non-compliant input whose
video track resolves to the target language. -/
theorem applyPlan_reeval_witness :
    hasVideo (applyPlan c3wInfo c3wCfg ActionType.all) = true
    ∧ needsFix (applyPlan c3wInfo c3wCfg ActionType.all) c3wCfg ActionType.all = false :=
  applyPlan_reeval_compliant c3wInfo c3wCfg ActionType.all (by decide) (by decide)
    (Or.inr (Or.inr (by decide)))

/-- C4: under a scope including audio, an audio track whose language is
not in `allowedAudioLanguages` makes the file non-compliant, its id is
excluded from the audio keep-list (given that the source-assigned id
strings are distinct, as mkvmerge guarantees), and no default-flag
instruction is emitted for it; an audio track whose language is allowed
makes the file non-compliant whenever its default flag differs from
`(language == preferredDefaultAudioLanguage)`, and the default-flag
instruction emitted for it is `yes` exactly when its language equals
`preferredDefaultAudioLanguage`. -/
theorem audio_policy_enforcement (info : MkvInfo) (cfg : Config)
    (actionType : ActionType) (t : Track)
    (hmem : t ∈ info.tracks) (ht : t.type = "audio")
    (ha : audioScope actionType = true) :
    (isInList t.properties.language cfg.audioLanguages = false →
      needsFix info cfg actionType = true
      ∧ ((info.tracks.map fun u => toString u.id).Nodup →
          toString t.id ∉ keepAudioIds info cfg actionType)
      ∧ trackArgs info cfg actionType t = [])
    ∧ (isInList t.properties.language cfg.audioLanguages = true →
      (t.properties.defaultTrack ≠ (t.properties.language == cfg.defaultAudio) →
        needsFix info cfg actionType = true)
      ∧ trackArgs info cfg actionType t
          = ["--default-track",
             toString t.id
               ++ (if t.properties.language == cfg.defaultAudio then ":yes" else ":no")]) := by
  constructor
  · intro hnal
    refine ⟨?_, ?_, ?_⟩
    · apply List.any_eq_true.mpr
      refine ⟨t, hmem, ?_⟩
      rw [trackNeedsFix_audio info cfg actionType t ht, if_pos ha, hnal]
      simp
    · intro hnodup hmemkeep
      simp only [keepAudioIds, List.mem_map, List.mem_filter] at hmemkeep
      obtain ⟨u, ⟨humem, hp⟩, hid⟩ := hmemkeep
      simp only [Bool.and_eq_true, beq_iff_eq] at hp
      obtain ⟨⟨hu1, hu2⟩, hu3⟩ := hp
      have huid : u = t := List.inj_on_of_nodup_map hnodup humem hmem hid
      rw [huid] at hu3
      rw [hu3] at hnal
      exact absurd hnal (by decide)
    · simp [trackArgs, ht, hnal]
  · intro hal
    constructor
    · intro hdm
      apply List.any_eq_true.mpr
      refine ⟨t, hmem, ?_⟩
      rw [trackNeedsFix_audio info cfg actionType t ht, if_pos ha, hal]
      simp [hdm]
    · simp only [trackArgs, ht, ha, hal]
      by_cases hd : (t.properties.language == cfg.defaultAudio) = true <;> simp [hd]

/-- The C4 witness inspection: one video track, a disallowed "fre" audio
track and an allowed "eng" audio track with a wrong default flag. -/
def c4Info : MkvInfo :=
  ⟨[⟨0, "video", ⟨"eng", true⟩⟩, ⟨1, "audio", ⟨"fre", true⟩⟩,
    ⟨2, "audio", ⟨"eng", false⟩⟩]⟩

/-- The C4 witness policy. -/
def c4Cfg : Config := ⟨"eng", ["eng"], "eng", []⟩

/-- Witness for C4 at a concrete input: the "fre" track is dropped with
no default-flag instruction; the kept "eng" track receives `2:yes`. -/
theorem audio_policy_enforcement_witness :
    needsFix c4Info c4Cfg ActionType.all = true
    ∧ toString (1 : Nat) ∉ keepAudioIds c4Info c4Cfg ActionType.all
    ∧ trackArgs c4Info c4Cfg ActionType.all ⟨1, "audio", ⟨"fre", true⟩⟩ = []
    ∧ trackArgs c4Info c4Cfg ActionType.all ⟨2, "audio", ⟨"eng", false⟩⟩
        = ["--default-track", "2:yes"] := by
  have h1 := (audio_policy_enforcement c4Info c4Cfg ActionType.all
    ⟨1, "audio", ⟨"fre", true⟩⟩ (by decide) rfl (by decide)).1 (by decide)
  have h2 := (audio_policy_enforcement c4Info c4Cfg ActionType.all
    ⟨2, "audio", ⟨"eng", false⟩⟩ (by decide) rfl (by decide)).2 (by decide)
  refine ⟨h1.1, h1.2.1 (by decide), h1.2.2, ?_⟩
  rw [h2.2]
  decide

/-- C5: for every inspection and policy, under a scope including the
track kind: when no audio (respectively subtitle) track has an allowed
language — i.e. the keep-list is empty — the command passed to the
external tool carries the explicit drop-all instruction `--no-audio`
(respectively `--no-subtitles`); when some track of the kind is allowed,
the command carries the flag followed by the comma-joined keep-list,
which lists the kept ids in original declaration order. -/
theorem keep_list_drop_all_args (info : MkvInfo) (cfg : Config)
    (actionType : ActionType) (out inp : String) :
    (audioScope actionType = true →
      ((∀ u ∈ info.tracks, u.type = "audio" →
          isInList u.properties.language cfg.audioLanguages = false) →
        audioTracksArgs info cfg actionType = ["--no-audio"]
        ∧ "--no-audio" ∈ buildArgs info cfg actionType out inp)
      ∧ ((∃ u ∈ info.tracks, u.type = "audio"
            ∧ isInList u.properties.language cfg.audioLanguages = true) →
        audioTracksArgs info cfg actionType
          = ["--audio-tracks", String.intercalate "," (keepAudioIds info cfg actionType)]
        ∧ ["--audio-tracks", String.intercalate "," (keepAudioIds info cfg actionType)]
            <:+: buildArgs info cfg actionType out inp))
    ∧ (subScope actionType = true →
      ((∀ u ∈ info.tracks, u.type = "subtitles" →
          isInList u.properties.language cfg.subtitleLanguages = false) →
        subtitleTracksArgs info cfg actionType = ["--no-subtitles"]
        ∧ "--no-subtitles" ∈ buildArgs info cfg actionType out inp)
      ∧ ((∃ u ∈ info.tracks, u.type = "subtitles"
            ∧ isInList u.properties.language cfg.subtitleLanguages = true) →
        subtitleTracksArgs info cfg actionType
          = ["--subtitle-tracks",
             String.intercalate "," (keepSubtitleIds info cfg actionType)]
        ∧ ["--subtitle-tracks", String.intercalate "," (keepSubtitleIds info cfg actionType)]
            <:+: buildArgs info cfg actionType out inp)) := by
  constructor
  · intro ha
    constructor
    · intro hnone
      have hnil : keepAudioIds info cfg actionType = [] := by
        rw [keepAudioIds, List.map_eq_nil_iff, List.filter_eq_nil_iff]
        intro a hamem hpred
        simp only [Bool.and_eq_true, beq_iff_eq] at hpred
        rw [hnone a hamem hpred.1.1] at hpred
        exact absurd hpred.2 (by decide)
      have hA : audioTracksArgs info cfg actionType = ["--no-audio"] := by
        rw [audioTracksArgs, if_pos ha, hnil]
        simp
      exact ⟨hA, by simp [buildArgs, hA]⟩
    · intro hex
      have hne : keepAudioIds info cfg actionType ≠ [] := by
        intro hc
        rw [keepAudioIds, List.map_eq_nil_iff, List.filter_eq_nil_iff] at hc
        obtain ⟨u, humem, hut, hua⟩ := hex
        exact hc u humem (by simp [hut, ha, hua])
      have hlen : (keepAudioIds info cfg actionType).length > 0 :=
        List.length_pos.mpr hne
      have hA : audioTracksArgs info cfg actionType
          = ["--audio-tracks",
             String.intercalate "," (keepAudioIds info cfg actionType)] := by
        rw [audioTracksArgs, if_pos ha, if_pos hlen]
      refine ⟨hA, ?_⟩
      have hb : buildArgs info cfg actionType out inp
          = ["-o", out] ++ audioTracksArgs info cfg actionType
            ++ (subtitleTracksArgs info cfg actionType
              ++ (info.tracks.flatMap (trackArgs info cfg actionType) ++ [inp])) := by
        rw [buildArgs]
        simp [List.append_assoc]
      rw [hb, hA]
      exact List.infix_append _ _ _
  · intro hs
    constructor
    · intro hnone
      have hnil : keepSubtitleIds info cfg actionType = [] := by
        rw [keepSubtitleIds, List.map_eq_nil_iff, List.filter_eq_nil_iff]
        intro a hamem hpred
        simp only [Bool.and_eq_true, beq_iff_eq] at hpred
        rw [hnone a hamem hpred.1.1] at hpred
        exact absurd hpred.2 (by decide)
      have hS : subtitleTracksArgs info cfg actionType = ["--no-subtitles"] := by
        rw [subtitleTracksArgs, if_pos hs, hnil]
        simp
      exact ⟨hS, by simp [buildArgs, hS]⟩
    · intro hex
      have hne : keepSubtitleIds info cfg actionType ≠ [] := by
        intro hc
        rw [keepSubtitleIds, List.map_eq_nil_iff, List.filter_eq_nil_iff] at hc
        obtain ⟨u, humem, hut, hua⟩ := hex
        exact hc u humem (by simp [hut, hs, hua])
      have hlen : (keepSubtitleIds info cfg actionType).length > 0 :=
        List.length_pos.mpr hne
      have hS : subtitleTracksArgs info cfg actionType
          = ["--subtitle-tracks",
             String.intercalate "," (keepSubtitleIds info cfg actionType)] := by
        rw [subtitleTracksArgs, if_pos hs, if_pos hlen]
      refine ⟨hS, ?_⟩
      have hb : buildArgs info cfg actionType out inp
          = (["-o", out] ++ audioTracksArgs info cfg actionType)
            ++ subtitleTracksArgs info cfg actionType
            ++ (info.tracks.flatMap (trackArgs info cfg actionType) ++ [inp]) := by
        rw [buildArgs]
        simp [List.append_assoc]
      rw [hb, hS]
      exact List.infix_append _ _ _

/-- The C5 witness inspection: a video track, a disallowed audio track
and an allowed subtitle track. -/
def c5Info : MkvInfo :=
  ⟨[⟨0, "video", ⟨"eng", true⟩⟩, ⟨1, "audio", ⟨"fre", true⟩⟩,
    ⟨2, "subtitles", ⟨"eng", false⟩⟩]⟩

/-- The C5 witness policy: empty audio allow-list, subtitles allow "eng". -/
def c5Cfg : Config := ⟨"eng", [], "", ["eng"]⟩

/-- Witness for C5 at a concrete input: the empty audio keep-list becomes
`--no-audio` while the non-empty subtitle keep-list becomes an explicit
`--subtitle-tracks` id list. -/
theorem keep_list_drop_all_args_witness :
    audioTracksArgs c5Info c5Cfg ActionType.all = ["--no-audio"]
    ∧ "--no-audio" ∈ buildArgs c5Info c5Cfg ActionType.all "o.mkv" "i.mkv"
    ∧ subtitleTracksArgs c5Info c5Cfg ActionType.all
        = ["--subtitle-tracks",
           String.intercalate "," (keepSubtitleIds c5Info c5Cfg ActionType.all)]
    ∧ ["--subtitle-tracks", String.intercalate "," (keepSubtitleIds c5Info c5Cfg ActionType.all)]
        <:+: buildArgs c5Info c5Cfg ActionType.all "o.mkv" "i.mkv" := by
  have h := keep_list_drop_all_args c5Info c5Cfg ActionType.all "o.mkv" "i.mkv"
  have ha := (h.1 (by decide)).1 (by decide)
  have hs := (h.2 (by decide)).2 (by decide)
  exact ⟨ha.1, ha.2, hs.1, hs.2⟩

/-- C6 (amended): under a scope that includes audio, the command built
for the external tool contains a `--language` instruction for **every**
video track, carrying the resolved target language — it is emitted
unconditionally, not only when the inference rule determines a change is
needed (when no change is needed the instruction re-asserts the current
language, a no-op override). -/
theorem video_language_always_emitted (info : MkvInfo) (cfg : Config)
    (actionType : ActionType) (out inp : String) (t : Track)
    (hmem : t ∈ info.tracks) (ht : t.type = "video")
    (ha : audioScope actionType = true) :
    ["--language",
     toString t.id ++ ":" ++ (determineTargetVideoLanguage t info cfg.videoLanguage).1]
      <:+: buildArgs info cfg actionType out inp := by
  have htargs : trackArgs info cfg actionType t
      = ["--language",
         toString t.id ++ ":"
           ++ (determineTargetVideoLanguage t info cfg.videoLanguage).1] := by
    simp [trackArgs, ht, ha]
  obtain ⟨s1, s2, hsplit⟩ := List.append_of_mem hmem
  have h1 : trackArgs info cfg actionType t
      <:+: info.tracks.flatMap (trackArgs info cfg actionType) := by
    rw [hsplit, List.flatMap_append, List.flatMap_cons]
    exact ⟨s1.flatMap (trackArgs info cfg actionType),
      s2.flatMap (trackArgs info cfg actionType), by rw [List.append_assoc]⟩
  have h2 : info.tracks.flatMap (trackArgs info cfg actionType)
      <:+: buildArgs info cfg actionType out inp := by
    rw [buildArgs]
    exact List.infix_append _ _ _
  exact htargs ▸ h1.trans h2

/-- The video track of the C6 counterexample. -/
def c6Video : Track := ⟨0, "video", ⟨"eng", true⟩⟩

/-- The C6 counterexample inspection: a video track already in the target
language plus a disallowed audio track (the only source of
non-compliance). -/
def c6Info : MkvInfo := ⟨[c6Video, ⟨1, "audio", ⟨"fre", false⟩⟩]⟩

/-- The C6 counterexample policy. -/
def c6Cfg : Config := ⟨"eng", [], "", []⟩

/-- C6 (counterexample): the file is non-compliant only because of its
audio track; the inference rule reports that the video track needs no
change (fix flag false), yet the built command still contains
`--language 0:eng` for it. -/
theorem video_language_noop_cex :
    needsFix c6Info c6Cfg ActionType.all = true
    ∧ (determineTargetVideoLanguage c6Video c6Info c6Cfg.videoLanguage).2 = false
    ∧ "--language" ∈ buildArgs c6Info c6Cfg ActionType.all "o.mkv" "i.mkv"
    ∧ "0:eng" ∈ buildArgs c6Info c6Cfg ActionType.all "o.mkv" "i.mkv" := by
  decide

/-- Witness for the amended C6 at the same concrete input. -/
theorem video_language_always_emitted_witness :
    ["--language",
     toString c6Video.id ++ ":"
       ++ (determineTargetVideoLanguage c6Video c6Info c6Cfg.videoLanguage).1]
      <:+: buildArgs c6Info c6Cfg ActionType.all "o.mkv" "i.mkv" :=
  video_language_always_emitted c6Info c6Cfg ActionType.all "o.mkv" "i.mkv"
    c6Video (by decide) rfl (by decide)

instance (o n : String) (ops : List FsWriteOp) : Decidable (atomicOnCrash o n ops) := by
  unfold atomicOnCrash
  infer_instance

/-- The C7 failing inspection: a single fully compliant audio track and
no video track at all. -/
def c7Info : MkvInfo := ⟨[⟨0, "audio", ⟨"eng", true⟩⟩]⟩

/-- The C7 policy, which the audio track satisfies. -/
def c7Cfg : Config := ⟨"eng", ["eng"], "eng", []⟩

/-- C7 (code bug): a file whose inspection yields no video track is
indeed never taken through the compliant early return (`hasVideo &&
!needsFix` fails), but instead of being surfaced it falls through to the
remux branch even though nothing needs fixing: the tool is invoked, and
on success the worker receives the non-empty output path and enters it
into the cache — contradicting the claim that such a file is never
silently remuxed or cached.  In check-only mode it returns the empty
path and is not cached. -/
theorem no_video_remux_and_cache_bug :
    hasVideo c7Info = false
    ∧ needsFix c7Info c7Cfg ActionType.all = false
    ∧ remuxDecision c7Info c7Cfg false ActionType.all "show.mkv"
        = RemuxResult.remux "show-remux.mkv"
            (buildArgs c7Info c7Cfg ActionType.all "show-remux.mkv" "show.mkv")
    ∧ workerCachedPath
        (remuxFinalPath (remuxDecision c7Info c7Cfg false ActionType.all "show.mkv")
          true true)
        = some "show-remux.mkv"
    ∧ remuxDecision c7Info c7Cfg true ActionType.all "show.mkv"
        = RemuxResult.checkOnlySkip
    ∧ workerCachedPath
        (remuxFinalPath (remuxDecision c7Info c7Cfg true ActionType.all "show.mkv")
          true true)
        = none := by
  decide

/-- C8: the cache contract.  Update followed immediately by Check on the
same key under an unchanged file system returns true; Check returns true
iff an entry exists under the key whose stored time equals the file's
current modification time; if the modification time changes between
Update and Check, Check returns false; and when stat fails Check returns
false as its boolean result (the worker, which consults only the
boolean, proceeds to re-evaluate). -/
theorem cache_check_update_contract (fs fs2 : FileSystem) (items : CacheItems)
    (key path : String) :
    (∀ items2, Cache.Update fs items key path = (Except.ok (), items2) →
      (Cache.Check fs items2 key path).1 = true)
    ∧ ((Cache.Check fs items key path).1 = true ↔
        ∃ a t, fs.abs path = Except.ok a ∧ fs.mtimeUnix a = Except.ok t
          ∧ items key = some t)
    ∧ (∀ items2 a t t2, Cache.Update fs items key path = (Except.ok (), items2) →
        fs.abs path = Except.ok a → fs2.abs path = Except.ok a →
        fs.mtimeUnix a = Except.ok t → fs2.mtimeUnix a = Except.ok t2 → t2 ≠ t →
        (Cache.Check fs2 items2 key path).1 = false)
    ∧ (∀ a e, fs.abs path = Except.ok a → fs.mtimeUnix a = Except.error e →
        (Cache.Check fs items key path).1 = false) := by
  refine ⟨?_, ?_, ?_, ?_⟩
  · intro items2 hupd
    cases habs : fs.abs path with
    | error e => simp [Cache.Update, habs] at hupd
    | ok a =>
      cases hmt : fs.mtimeUnix a with
      | error e => simp [Cache.Update, habs, hmt] at hupd
      | ok mt =>
        simp only [Cache.Update, habs, hmt, Prod.mk.injEq, true_and] at hupd
        simp [Cache.Check, habs, hmt, ← hupd]
  · cases habs : fs.abs path with
    | error e => simp [Cache.Check, habs]
    | ok a =>
      cases hmt : fs.mtimeUnix a with
      | error e => simp [Cache.Check, habs, hmt]
      | ok mt =>
        cases hk : items key with
        | none => simp [Cache.Check, habs, hmt, hk]
        | some c =>
          simp [Cache.Check, habs, hmt, hk, decide_eq_true_eq, eq_comm]
  · intro items2 a t t2 hupd habs habs2 hmt hmt2 hne
    simp only [Cache.Update, habs, hmt, Prod.mk.injEq, true_and] at hupd
    simp [Cache.Check, habs2, hmt2, ← hupd, hne]
  · intro a e habs hmt
    simp [Cache.Check, habs, hmt]

/-- A file system for the C8 witness: every path resolves under "/abs/"
and every stat reports modification time 5. -/
def c8Fs : FileSystem := ⟨fun p => Except.ok ("/abs/" ++ p), fun _ => Except.ok 5⟩

/-- The C8 witness file system after the file was touched: same path
resolution, modification time now 6. -/
def c8Fs2 : FileSystem := ⟨fun p => Except.ok ("/abs/" ++ p), fun _ => Except.ok 6⟩

/-- A file system whose stat always fails, for the C8 witness. -/
def c8FsErr : FileSystem :=
  ⟨fun p => Except.ok ("/abs/" ++ p), fun _ => Except.error "stat failed"⟩

/-- The empty cache map. -/
def cacheEmptyItems : CacheItems := fun _ => none

/-- The cache map after the C8 witness update. -/
def c8Upd : CacheItems := fun k => if k = "all:/abs/a.mkv" then some 5 else none

/-- Witness for C8 at concrete inputs: update-then-check is true, a
touched file makes check false, and a failed stat makes check false. -/
theorem cache_check_update_contract_witness :
    (Cache.Check c8Fs c8Upd "all:/abs/a.mkv" "a.mkv").1 = true
    ∧ (Cache.Check c8Fs2 c8Upd "all:/abs/a.mkv" "a.mkv").1 = false
    ∧ (Cache.Check c8FsErr cacheEmptyItems "all:/abs/a.mkv" "a.mkv").1 = false := by
  have h := cache_check_update_contract c8Fs c8Fs2 cacheEmptyItems "all:/abs/a.mkv" "a.mkv"
  have h1 := h.1 c8Upd rfl
  have h3 := h.2.2.1 c8Upd "/abs/a.mkv" 5 6 rfl rfl rfl rfl rfl (by decide)
  have h4 := (cache_check_update_contract c8FsErr c8FsErr cacheEmptyItems
    "all:/abs/a.mkv" "a.mkv").2.2.2 "/abs/a.mkv" "stat failed" rfl rfl
  exact ⟨h1, h3, h4⟩

/-- C9 (code bug): `Cache.Save` performs a single in-place `os.WriteFile`
on the cache path — truncate, then write.  The crash point after the
truncation (prefix of length 1) leaves the file empty, which is neither
the old nor the new content, so the write sequence is not an atomic
replace; the spec requires write-to-temporary-then-rename or an
equivalent.  (Replaying the full sequence, even repeatedly, does yield
the new content: repetition is idempotent; only crash-atomicity fails.) -/
theorem cache_save_not_atomic :
    Cache.saveOps "new-cache-data"
        = [FsWriteOp.truncate, FsWriteOp.append "new-cache-data"]
    ∧ runWriteOps "old-cache-data" ((Cache.saveOps "new-cache-data").take 1) = ""
    ∧ (runWriteOps "old-cache-data" ((Cache.saveOps "new-cache-data").take 1)
        == "old-cache-data") = false
    ∧ (runWriteOps "old-cache-data" ((Cache.saveOps "new-cache-data").take 1)
        == "new-cache-data") = false
    ∧ decide (atomicOnCrash "old-cache-data" "new-cache-data"
        (Cache.saveOps "new-cache-data")) = false
    ∧ runWriteOps "old-cache-data" (Cache.saveOps "new-cache-data") = "new-cache-data"
    ∧ runWriteOps "old-cache-data"
        (Cache.saveOps "new-cache-data" ++ Cache.saveOps "new-cache-data")
        = "new-cache-data" := by
  decide

/-- C10: `Cache.Update` is atomic on error — when the path resolution or
the stat fails, it returns that error and the returned Items map is the
argument map itself, unchanged under every key (the Go code mutates
`c.Items` only after both calls succeed). -/
theorem cache_update_error_atomic (fs : FileSystem) (items : CacheItems)
    (key path : String) :
    (∀ e, fs.abs path = Except.error e →
      Cache.Update fs items key path = (Except.error e, items))
    ∧ (∀ a e, fs.abs path = Except.ok a → fs.mtimeUnix a = Except.error e →
      Cache.Update fs items key path = (Except.error e, items)) := by
  constructor
  · intro e habs
    simp [Cache.Update, habs]
  · intro a e habs hmt
    simp [Cache.Update, habs, hmt]

/-- A file system whose path resolution always fails, for the C10 witness. -/
def c10FsErr : FileSystem := ⟨fun _ => Except.error "abs failed", fun _ => Except.ok 0⟩

/-- Witness for C10 at a concrete input: a failed path resolution leaves
the map untouched. -/
theorem cache_update_error_atomic_witness :
    Cache.Update c10FsErr cacheEmptyItems "k" "p"
      = (Except.error "abs failed", cacheEmptyItems) :=
  (cache_update_error_atomic c10FsErr cacheEmptyItems "k" "p").1 "abs failed" rfl
